import Mathlib

/-!
Verification of the benchmarking harness in `binaries/benchmark_helper.cc`
(caffe2 benchmark driver): backend/engine configuration, input-tensor
materialization, the warmup + measured execution loop, and output writing.

The C++ is shallowly embedded: the workspace (blob store) is an association
list from blob names to blob contents; the compile-time `#ifdef __CUDA_ARCH__`
gate is an explicit boolean `compiled`; fatal `CAFFE_THROW` / `CAFFE_ENFORCE`
failures are modelled by returning the store/trace at the point of the throw
together with `some errorMessage` (the process aborts there, so nothing after
the throw is observable).
-/

set_option autoImplicit false

namespace BenchmarkHelper

/-- Device-type tags of `caffe2::DeviceType` (proto enum values). -/
abbrev DeviceType := Nat

/-- `caffe2::CPU` -/
def DeviceType.CPU : DeviceType := 0

/-- `caffe2::CUDA` -/
def DeviceType.CUDA : DeviceType := 1

/-- One `caffe2::OperatorDef` of the net: its engine tag, the device type in
its `device_option`, and an opaque stand-in for all its other fields. -/
structure OperatorDef where
  engine : String
  device_type : DeviceType
  other : Nat
deriving DecidableEq, Repr

instance : Inhabited OperatorDef := ⟨⟨"", 0, 0⟩⟩

/-- A `caffe2::NetDef`: optional name and the ordered operator list. -/
structure NetDef where
  name : Option String
  op : List OperatorDef
deriving DecidableEq, Repr

/-- `backendCudaSet`: returns whether to run on the GPU, or throws.
`compiled` models the `#ifdef __CUDA_ARCH__` compile-time gate and
`hasCudaGPU` models `caffe2::HasCudaGPU()`. -/
def backendCudaSet (compiled hasCudaGPU : Bool) (backend : String) :
    Except String Bool :=
  if backend = "cuda" then
    if compiled then
      if hasCudaGPU then Except.ok true
      else Except.error "NO GPU support on this host machine"
    else Except.error "NO GPU support"
  else Except.ok false

/-- `setDeviceType`: stamps `run_dev` on every operator's device option. -/
def setDeviceType (net_def : NetDef) (run_dev : DeviceType) : NetDef :=
  { net_def with
    op := net_def.op.map fun op => { op with device_type := run_dev } }

/-- `setOperatorEngine`: for a non-`builtin` backend, resolves the engine tag
via the chained comparisons (sentinel `"NONE"` for unrecognized backends),
enforces that it is not the sentinel, and stamps it on every operator.
The pair-with-`Option String` result is the net at the point of
return/throw together with the thrown message, if any; the
`CAFFE_ENFORCE` fires before the loop, so on failure the net is untouched. -/
def setOperatorEngine (net_def : NetDef) (backend : String) :
    NetDef × Option String :=
  if backend ≠ "builtin" then
    let engine : String :=
      if backend = "nnpack" then "NNPACK"
      else if backend = "eigen" then "EIGEN"
      else if backend = "mkl" then "MKLDNN"
      else if backend = "cuda" then "CUDA"
      else if backend = "default" then "" else "NONE"
    if engine ≠ "NONE" then
      ({ net_def with
         op := net_def.op.map fun op_def => { op_def with engine := engine } },
       none)
    else (net_def, some "Backend is not supported")
  else (net_def, none)

/-- Modelled from the spec: the BackendConfigurer's caller sequencing (the
`benchmark` driver, not under the sources here) runs the capability check
`backendCudaSet` first, resolves the device type from its result, and only
then applies the engine and device-type rewrites; a capability failure
therefore aborts before any rewrite touches the net. -/
def configureBackend (net_def : NetDef) (backend : String)
    (compiled hasCudaGPU : Bool) : NetDef × Option String :=
  match backendCudaSet compiled hasCudaGPU backend with
  | Except.error e => (net_def, some e)
  | Except.ok run_on_gpu =>
    let run_dev : DeviceType :=
      if run_on_gpu then DeviceType.CUDA else DeviceType.CPU
    match setOperatorEngine net_def backend with
    | (n1, some e) => (n1, some e)
    | (n1, none) => (setDeviceType n1 run_dev, none)

/-- Applying the engine rewrite followed by the device-type rewrite, the
combined per-configuration transform whose idempotence the spec asserts. -/
def rewriteNet (net_def : NetDef) (backend : String) (run_dev : DeviceType) :
    NetDef × Option String :=
  match setOperatorEngine net_def backend with
  | (n1, some e) => (n1, some e)
  | (n1, none) => (setDeviceType n1 run_dev, none)

/-- The six backend identifiers the harness recognizes. -/
def recognizedBackends : List String :=
  ["builtin", "nnpack", "eigen", "mkl", "cuda", "default"]

/-! ## The workspace (blob store) and tensors -/

/-- Element types the harness can allocate (`uint8_t` / `float`). -/
inductive ElemType where
  | uint8
  | float32
deriving DecidableEq, Repr

/-- Observable state of a tensor materialized by the harness: its shape, the
element type its storage was typed with (`none` before any `mutable_data`
call), and its residency (`TensorCUDA` vs `TensorCPU`). -/
structure Tensor where
  dims : List Nat
  etype : Option ElemType
  onGpu : Bool
deriving DecidableEq, Repr

/-- Contents of a `caffe2::Blob`: freshly created and empty, holding a
tensor, or holding the result of deserializing the proto read from a file
(the blob encoding is opaque; the file path identifies it). -/
inductive BlobContent where
  | empty
  | tensor (t : Tensor)
  | deserialized (file : String)
deriving DecidableEq, Repr

/-- A `caffe2::Workspace`: association of blob names to blob contents. -/
abbrev Workspace := List (String × BlobContent)

/-- `Workspace::GetBlob`: the content stored under a name, if any. -/
def wsLookup : Workspace → String → Option BlobContent
  | [], _ => none
  | (m, c) :: rest, n => if m = n then some c else wsLookup rest n

/-- Replace the content under a name, or append the entry if absent
(`CreateBlob` followed by filling the blob). -/
def upsert : Workspace → String → BlobContent → Workspace
  | [], n, c => [(n, c)]
  | (m, c0) :: rest, n, c =>
    if m = n then (m, c) :: rest else (m, c0) :: upsert rest n c

/-- `Workspace::CreateBlob` as used by `loadInput`: return the existing blob
or insert a fresh empty one. -/
def ensureBlob : Workspace → String → Workspace
  | [], n => [(n, BlobContent.empty)]
  | (m, c) :: rest, n =>
    if m = n then (m, c) :: rest else (m, c) :: ensureBlob rest n

/-- `Workspace::Blobs()`: the names currently in the store. -/
def wsBlobs (ws : Workspace) : List String := ws.map Prod.fst

/-! ## Input materialization (`loadInput`) -/

/-- Modelled from the spec: `caffe2::stoi` (`caffe2/utils/string_utils`, not
among the sources here) parses one decimal integer; the spec's dimension
groups are "comma-separated lists of non-negative integers". -/
def caffe2Stoi (s : String) : Nat :=
  if s.toList ≠ [] ∧ s.toList.all Char.isDigit then
    s.toList.foldl (fun n c => n * 10 + (c.toNat - Char.toNat '0')) 0
  else 0

/-- Cut a character list at every separator (one piece more than there are
separators). -/
def splitList (sep : Char) : List Char → List (List Char)
  | [] => [[]]
  | c :: cs =>
    if c = sep then [] :: splitList sep cs
    else
      match splitList sep cs with
      | [] => [[c]]
      | p :: ps => (c :: p) :: ps

/-- Modelled from the spec: `caffe2::split` (`caffe2/utils/string_utils`, not
among the sources here) cuts a string at every separator; an empty string
yields no pieces, and a trailing separator yields no trailing empty piece
(`std::getline` semantics). -/
def caffe2Split (sep : Char) (s : String) : List String :=
  if s.toList = [] then []
  else
    let pieces := (splitList sep s.toList).map (fun cs => String.mk cs)
    if s.toList.getLast? = some sep then pieces.dropLast else pieces

/-- One dimension group, e.g. `"1,3,2,2"`, parsed into a shape. -/
def parseDims (group : String) : List Nat :=
  (caffe2Split ',' group).map caffe2Stoi

/-- The element type requested by an `input_type` entry, if supported. -/
def parseElemType (s : String) : Option ElemType :=
  if s = "uint8_t" then some ElemType.uint8
  else if s = "float" then some ElemType.float32
  else none

/-- One iteration of `loadInput`'s shape/type loop for the triple
(name, dimension group, type string): fetch or create the blob, then — per
residency — resize the held tensor to the parsed dims and type its storage,
throwing on an unsupported type or on GPU residency without GPU support.
A `CAFFE_THROW` aborts the invocation, so the store paired with a thrown
message is never observed afterwards; it is reported as it was before the
tensor mutation. -/
def materializeOne (run_on_gpu compiled : Bool) (ws : Workspace)
    (name group tystr : String) : Workspace × Option String :=
  let dims := parseDims group
  let ws1 := ensureBlob ws name
  if run_on_gpu then
    if compiled then
      match parseElemType tystr with
      | some ty => (upsert ws1 name (BlobContent.tensor ⟨dims, some ty, true⟩), none)
      | none => (ws1, some ("Unsupported input type: " ++ tystr))
    else (ws1, some "Not support GPU on mobile.")
  else
    match parseElemType tystr with
    | some ty => (upsert ws1 name (BlobContent.tensor ⟨dims, some ty, false⟩), none)
    | none => (ws1, some ("Unsupported input type: " ++ tystr))

/-- Zip the three parallel descriptor lists (equal lengths are enforced
before the loop runs). -/
def zip3 : List String → List String → List String →
    List (String × String × String)
  | n :: ns, d :: ds, t :: ts => (n, d, t) :: zip3 ns ds ts
  | _, _, _ => []

/-- `loadInput`'s shape/type loop over the zipped descriptor triples,
stopping at the first throw. -/
def loadInputLoop (run_on_gpu compiled : Bool) :
    Workspace → List (String × String × String) → Workspace × Option String
  | ws, [] => (ws, none)
  | ws, (n, d, t) :: rest =>
    match materializeOne run_on_gpu compiled ws n d t with
    | (ws1, none) => loadInputLoop run_on_gpu compiled ws1 rest
    | (ws1, some e) => (ws1, some e)

/-- `loadInput` after the comma/semicolon splits: `input_names`,
`input_files`, `input_dims_list` and `input_type_list` are the split results
(a split list is empty exactly when the flag string was empty, so the
string-emptiness guards become list-emptiness guards). File mode deserializes
each file into its name's blob; shape/type mode runs the materialization
loop; names with no source at all throw. -/
def loadInput (ws : Workspace) (run_on_gpu compiled : Bool)
    (input_names input_files input_dims_list input_type_list : List String) :
    Workspace × Option String :=
  if input_names.isEmpty then (ws, none)
  else if ¬ input_files.isEmpty then
    if input_names.length = input_files.length then
      ((input_names.zip input_files).foldl
        (fun w p => upsert w p.1 (BlobContent.deserialized p.2)) ws, none)
    else (ws, some "Input name and file should have the same number.")
  else if ¬ input_dims_list.isEmpty ∨ ¬ input_type_list.isEmpty then
    if input_names.length = input_dims_list.length then
      if input_names.length = input_type_list.length then
        loadInputLoop run_on_gpu compiled ws
          (zip3 input_names input_dims_list input_type_list)
      else (ws, some "Input name and type should have the same number of items.")
    else (ws, some "Input name and dims should have the same number of items.")
  else
    (ws, some ("You requested input tensors, but neither input_file nor " ++
      "input_dims is set."))

/-! ## The execution loop (`runNetwork`) -/

/-- One `net->Run()` invocation, tagged by the phase and loop index that
issued it. -/
inductive RunEvent where
  | warmupRun (i : Nat)
  | mainRun (i : Nat)
  | individualRun (i : Nat)
deriving DecidableEq, Repr

/-- Whether an event is a warmup-phase run. -/
def RunEvent.isWarmup : RunEvent → Bool
  | RunEvent.warmupRun _ => true
  | _ => false

/-- The measured loop: per iteration one coarse-profile run, followed — when
`run_individual` is set — by one more run of the same iteration under the
fine profile. -/
def mainRuns (run_individual : Bool) : Nat → List RunEvent
  | 0 => []
  | n + 1 =>
    mainRuns run_individual n ++
      (if run_individual then [RunEvent.mainRun n, RunEvent.individualRun n]
       else [RunEvent.mainRun n])

/-- `runNetwork`'s run schedule: the warmup loop (a C `for` over `int`, so a
negative bound yields zero iterations), then the `iter >= 0` enforcement,
then the measured loop. `net->Run()` is the opaque engine capability and is
modelled as succeeding; the result pairs every run issued before
return/throw with the thrown message, if any. -/
def runNetwork (run_individual : Bool) (warmup iter : Int) :
    List RunEvent × Option String :=
  let warmupTrace := (List.range warmup.toNat).map RunEvent.warmupRun
  if iter < 0 then
    (warmupTrace,
     some ("Number of main runs should be non negative, provided " ++
       toString iter ++ "."))
  else (warmupTrace ++ mainRuns run_individual iter.toNat, none)

/-! ## Output writing (`writeOutput`) -/

/-- One file/report produced by `writeOutput`: a binary file at
`output_prefix ++ name` holding the blob's opaque serialization, or the text
rendering of the named tensor (its destination is an external concern). -/
inductive OutEvent where
  | binaryFile (path : String) (blobName : String)
  | textOut (blobName : String)
deriving DecidableEq, Repr

/-- `writeOutput`'s per-name loop: enforce the blob exists, then write it in
text or binary form; outputs already written before a throw remain
written. -/
def writeOutputLoop (ws : Workspace) (run_on_gpu compiled text_output : Bool)
    (outPfx : String) : List String → List OutEvent × Option String
  | [] => ([], none)
  | name :: rest =>
    if (wsLookup ws name).isSome then
      if text_output then
        if run_on_gpu then
          if compiled then
            let (evs, err) :=
              writeOutputLoop ws run_on_gpu compiled text_output outPfx rest
            (OutEvent.textOut name :: evs, err)
          else ([], some "Not support GPU.")
        else
          let (evs, err) :=
            writeOutputLoop ws run_on_gpu compiled text_output outPfx rest
          (OutEvent.textOut name :: evs, err)
      else
        let (evs, err) :=
          writeOutputLoop ws run_on_gpu compiled text_output outPfx rest
        (OutEvent.binaryFile (outPfx ++ name) name :: evs, err)
    else ([], some ("You requested a non-existing blob: " ++ name))

/-- `writeOutput`: resolve the folder into a path prefix, split the requested
names (the literal `"*"` meaning every blob in the store), and run the
per-name loop. -/
def writeOutput (ws : Workspace) (run_on_gpu compiled : Bool)
    (output output_folder : String) (text_output : Bool) :
    List OutEvent × Option String :=
  let outPfx := if output_folder.length ≠ 0 then output_folder ++ "/" else ""
  if output.isEmpty then ([], none)
  else
    let output_names :=
      if output = "*" then wsBlobs ws else caffe2Split ',' output
    writeOutputLoop ws run_on_gpu compiled text_output outPfx output_names

/-! ## Helper lemmas -/

theorem op_getD_map (g : OperatorDef → OperatorDef) (l : List OperatorDef)
    (i : Nat) (hi : i < l.length) :
    (l.map g).getD i default = g (l.getD i default) := by
  induction l generalizing i with
  | nil => exact absurd hi (Nat.not_lt_zero i)
  | cons a t ih =>
    cases i with
    | zero => rfl
    | succ j => exact ih j (Nat.lt_of_succ_lt_succ hi)

/-! ## Claims about the backend configurer -/

/-- C6: the device-type rewrite stamps the resolved device type on every
operator, independently of any engine mapping (it never reads the backend),
and leaves the operator's engine and remaining fields, the operator count,
and the net name unchanged. -/
theorem c6_device_type_stamped (net : NetDef) (dev : DeviceType) :
    (setDeviceType net dev).name = net.name ∧
    (setDeviceType net dev).op.length = net.op.length ∧
    ∀ i, i < net.op.length →
      (setDeviceType net dev).op.getD i default =
        { net.op.getD i default with device_type := dev } := by
  refine ⟨rfl, by simp [setDeviceType], ?_⟩
  intro i hi
  exact op_getD_map (fun op => { op with device_type := dev }) net.op i hi

/-- Witness for C6 on a concrete one-operator net. -/
theorem c6_device_type_stamped_witness :
    (setDeviceType ⟨some "n", [⟨"E", 5, 7⟩]⟩ 1).op.getD 0 default =
      { (⟨some "n", [⟨"E", 5, 7⟩]⟩ : NetDef).op.getD 0 default with
        device_type := 1 } :=
  (c6_device_type_stamped ⟨some "n", [⟨"E", 5, 7⟩]⟩ 1).2.2 0 (by decide)

/-- C4: `builtin` leaves every engine field unchanged; `nnpack`, `eigen`,
`mkl`, `cuda`, `default` stamp `"NNPACK"`, `"EIGEN"`, `"MKLDNN"`, `"CUDA"`,
`""` on every operator (leaving the other operator fields alone); any other
identifier throws "Backend is not supported" with the net untouched. -/
theorem c4_engine_mapping (net : NetDef) (backend : String) :
    (backend = "builtin" → setOperatorEngine net backend = (net, none)) ∧
    (∀ e, (backend, e) ∈
        ([("nnpack", "NNPACK"), ("eigen", "EIGEN"), ("mkl", "MKLDNN"),
          ("cuda", "CUDA"), ("default", "")] : List (String × String)) →
      (setOperatorEngine net backend).2 = none ∧
      (setOperatorEngine net backend).1.name = net.name ∧
      (setOperatorEngine net backend).1.op.length = net.op.length ∧
      ∀ i, i < net.op.length →
        (setOperatorEngine net backend).1.op.getD i default =
          { net.op.getD i default with engine := e }) ∧
    (backend ∉ recognizedBackends →
      setOperatorEngine net backend = (net, some "Backend is not supported")) := by
  refine ⟨?_, ?_, ?_⟩
  · intro hb
    simp [setOperatorEngine, hb]
  · intro e he
    simp only [List.mem_cons, List.not_mem_nil, or_false] at he
    rcases he with h | h | h | h | h <;>
      (injection h with h1 h2; subst h1; subst h2) <;>
      refine ⟨by simp [setOperatorEngine], by simp [setOperatorEngine],
        by simp [setOperatorEngine], ?_⟩ <;>
      intro i hi <;>
      simpa [setOperatorEngine] using
        op_getD_map (fun op => { op with engine := _ }) net.op i hi
  · intro hb
    simp only [recognizedBackends, List.mem_cons, List.not_mem_nil, or_false,
      not_or] at hb
    obtain ⟨h1, h2, h3, h4, h5, h6⟩ := hb
    simp [setOperatorEngine, h1, h2, h3, h4, h5, h6]

/-- Witness for C4: a recognized backend, `builtin`, and a stranger, on a
concrete one-operator net. -/
theorem c4_engine_mapping_witness :
    setOperatorEngine ⟨some "n", [⟨"E", 5, 7⟩]⟩ "builtin" =
      (⟨some "n", [⟨"E", 5, 7⟩]⟩, none) ∧
    (setOperatorEngine ⟨some "n", [⟨"E", 5, 7⟩]⟩ "mkl").1.op.getD 0 default =
      { (⟨some "n", [⟨"E", 5, 7⟩]⟩ : NetDef).op.getD 0 default with
        engine := "MKLDNN" } ∧
    setOperatorEngine ⟨some "n", [⟨"E", 5, 7⟩]⟩ "foo" =
      (⟨some "n", [⟨"E", 5, 7⟩]⟩, some "Backend is not supported") :=
  ⟨(c4_engine_mapping ⟨some "n", [⟨"E", 5, 7⟩]⟩ "builtin").1 rfl,
   ((c4_engine_mapping ⟨some "n", [⟨"E", 5, 7⟩]⟩ "mkl").2.1 "MKLDNN"
      (by simp)).2.2.2 0 (by decide),
   (c4_engine_mapping ⟨some "n", [⟨"E", 5, 7⟩]⟩ "foo").2.2 (by decide)⟩

/-- C5: requesting `cuda` without compiled GPU support, or with support
compiled in but no device present, fails with the corresponding capability
message — the two messages are distinct — before any rewrite, so the net is
returned unmodified. -/
theorem c5_cuda_capability_error (net : NetDef) (compiled hasCudaGPU : Bool)
    (h : ¬(compiled = true ∧ hasCudaGPU = true)) :
    configureBackend net "cuda" compiled hasCudaGPU =
      (net,
       some (if compiled then "NO GPU support on this host machine"
             else "NO GPU support")) ∧
    ("NO GPU support on this host machine" : String) ≠ "NO GPU support" := by
  constructor
  · cases compiled <;> cases hasCudaGPU <;>
      simp_all [configureBackend, backendCudaSet]
  · decide

/-- Witness for C5: no GPU support compiled in, on a concrete net. -/
theorem c5_cuda_capability_error_witness :
    configureBackend ⟨some "n", [⟨"E", 5, 7⟩]⟩ "cuda" false false =
      (⟨some "n", [⟨"E", 5, 7⟩]⟩, some "NO GPU support") ∧
    ("NO GPU support on this host machine" : String) ≠ "NO GPU support" :=
  c5_cuda_capability_error ⟨some "n", [⟨"E", 5, 7⟩]⟩ false false (by simp)

/-- C8: for every recognized backend, applying the engine rewrite followed by
the device-type rewrite twice with the same backend and device yields exactly
the net obtained by applying them once. -/
theorem c8_rewrite_idempotent (net : NetDef) (backend : String)
    (dev : DeviceType) (h : backend ∈ recognizedBackends) :
    rewriteNet (rewriteNet net backend dev).1 backend dev =
      rewriteNet net backend dev := by
  fin_cases h <;>
    simp [rewriteNet, setOperatorEngine, setDeviceType, List.map_map,
      Function.comp]

/-- Witness for C8 on a concrete net with backend `eigen`. -/
theorem c8_rewrite_idempotent_witness :
    rewriteNet (rewriteNet ⟨some "n", [⟨"E", 5, 7⟩]⟩ "eigen" 0).1 "eigen" 0 =
      rewriteNet ⟨some "n", [⟨"E", 5, 7⟩]⟩ "eigen" 0 :=
  c8_rewrite_idempotent ⟨some "n", [⟨"E", 5, 7⟩]⟩ "eigen" 0 (by decide)

/-! ## Claims about the execution loop -/

theorem mainRuns_length_false (n : Nat) : (mainRuns false n).length = n := by
  induction n with
  | zero => rfl
  | succ m ih => simp [mainRuns, ih]

theorem mainRuns_length_true (n : Nat) : (mainRuns true n).length = 2 * n := by
  induction n with
  | zero => rfl
  | succ m ih =>
    simp [mainRuns, ih]
    omega

theorem mainRuns_no_warmup (ri : Bool) (n : Nat) :
    (mainRuns ri n).filter RunEvent.isWarmup = [] := by
  induction n with
  | zero => rfl
  | succ m ih => cases ri <;> simp [mainRuns, ih, RunEvent.isWarmup]

/-- C1: with non-negative warmup count `W` and measured count `I`, the loop
completes without error and issues exactly `W + I` run invocations when
`run_individual` is off, and exactly `W + 2I` when it is on. -/
theorem c1_run_counts (W I : Int) (_hW : 0 ≤ W) (hI : 0 ≤ I) :
    (runNetwork false W I).2 = none ∧
    (runNetwork false W I).1.length = W.toNat + I.toNat ∧
    (runNetwork true W I).2 = none ∧
    (runNetwork true W I).1.length = W.toNat + 2 * I.toNat := by
  have h : ¬ I < 0 := not_lt.mpr hI
  refine ⟨by simp [runNetwork, h], ?_, by simp [runNetwork, h], ?_⟩ <;>
    simp [runNetwork, h, mainRuns_length_false, mainRuns_length_true]

/-- Witness for C1 at `W = 2`, `I = 3`: 5 runs without the individual pass,
8 with it. -/
theorem c1_run_counts_witness :
    (runNetwork false 2 3).1.length = 5 ∧
    (runNetwork true 2 3).1.length = 8 :=
  ⟨((c1_run_counts 2 3 (by decide) (by decide)).2.1).trans (by decide),
   ((c1_run_counts 2 3 (by decide) (by decide)).2.2.2).trans (by decide)⟩

/-- C10: a negative warmup count is never rejected — it yields zero warmup
runs and, when `iter` is non-negative, no error at all; the non-negativity
check covers only `iter` and runs after the warmup loop, so with a negative
`iter` the full warmup schedule is still executed before the fatal error. -/
theorem c10_negative_counts (ri : Bool) (w it : Int) :
    (w < 0 →
      (runNetwork ri w it).1.filter RunEvent.isWarmup = [] ∧
      (0 ≤ it → (runNetwork ri w it).2 = none)) ∧
    (it < 0 →
      runNetwork ri w it =
        ((List.range w.toNat).map RunEvent.warmupRun,
         some ("Number of main runs should be non negative, provided " ++
           toString it ++ "."))) := by
  constructor
  · intro hw
    have hw0 : w.toNat = 0 := Int.toNat_of_nonpos (le_of_lt hw)
    constructor
    · by_cases hit : it < 0 <;>
        simp [runNetwork, hit, hw0, mainRuns_no_warmup]
    · intro hit
      simp [runNetwork, not_lt.mpr hit]
  · intro hit
    simp [runNetwork, hit]

/-- Witness for C10: warmup `-2` gives no warmup runs and no error with
`iter = 3`; `iter = -1` aborts after the two warmup runs. -/
theorem c10_negative_counts_witness :
    (runNetwork true (-2) 3).1.filter RunEvent.isWarmup = [] ∧
    (runNetwork true (-2) 3).2 = none ∧
    runNetwork true 2 (-1) =
      ((List.range 2).map RunEvent.warmupRun,
       some "Number of main runs should be non negative, provided -1.") :=
  ⟨((c10_negative_counts true (-2) 3).1 (by decide)).1,
   ((c10_negative_counts true (-2) 3).1 (by decide)).2 (by decide),
   ((c10_negative_counts true 2 (-1)).2 (by decide)).trans (by decide)⟩

/-! ## Claims about input materialization -/

theorem wsLookup_upsert (ws : Workspace) (n : String) (c : BlobContent)
    (m : String) :
    wsLookup (upsert ws n c) m = if n = m then some c else wsLookup ws m := by
  induction ws with
  | nil => simp [upsert, wsLookup, eq_comm]
  | cons kc rest ih =>
    obtain ⟨k, c0⟩ := kc
    by_cases hkn : k = n
    · subst hkn
      by_cases hm : k = m <;> simp [upsert, wsLookup, hm]
    · by_cases hm : k = m
      · subst hm
        have : ¬ n = k := fun h => hkn h.symm
        simp [upsert, wsLookup, hkn, this]
      · simp [upsert, wsLookup, hkn, hm, ih]

theorem upsert_ensureBlob (ws : Workspace) (n : String) (c : BlobContent) :
    upsert (ensureBlob ws n) n c = upsert ws n c := by
  induction ws with
  | nil => simp [ensureBlob, upsert]
  | cons kc rest ih =>
    obtain ⟨k, c0⟩ := kc
    by_cases hkn : k = n <;> simp [ensureBlob, upsert, hkn, ih]

theorem materializeOne_ok (gpu compiled : Bool) (hgc : gpu = true → compiled = true)
    (ws : Workspace) (n d t : String) (ht : (parseElemType t).isSome) :
    materializeOne gpu compiled ws n d t =
      (upsert ws n
        (BlobContent.tensor ⟨parseDims d, parseElemType t, gpu⟩), none) := by
  obtain ⟨ty, hty⟩ := Option.isSome_iff_exists.mp ht
  cases gpu with
  | false => simp [materializeOne, hty, upsert_ensureBlob]
  | true =>
    have hc : compiled = true := hgc rfl
    simp [materializeOne, hty, hc, upsert_ensureBlob]

theorem loadInputLoop_err_none (gpu compiled : Bool)
    (hgc : gpu = true → compiled = true)
    (l : List (String × String × String))
    (hty : ∀ x ∈ l, (parseElemType x.2.2).isSome) :
    ∀ ws, (loadInputLoop gpu compiled ws l).2 = none := by
  induction l with
  | nil => intro ws; rfl
  | cons x rest ih =>
    intro ws
    obtain ⟨n, d, t⟩ := x
    rw [loadInputLoop, materializeOne_ok gpu compiled hgc ws n d t
      (hty (n, d, t) (List.mem_cons_self _ _))]
    exact ih (fun y hy => hty y (List.mem_cons_of_mem _ hy)) _

theorem loadInputLoop_lookup_notmem (gpu compiled : Bool)
    (hgc : gpu = true → compiled = true)
    (l : List (String × String × String))
    (hty : ∀ x ∈ l, (parseElemType x.2.2).isSome) :
    ∀ ws n, n ∉ l.map (fun x => x.1) →
      wsLookup (loadInputLoop gpu compiled ws l).1 n = wsLookup ws n := by
  induction l with
  | nil => intro ws n _; rfl
  | cons x rest ih =>
    intro ws n hn
    obtain ⟨m, d, t⟩ := x
    simp only [List.map_cons, List.mem_cons, not_or] at hn
    rw [loadInputLoop, materializeOne_ok gpu compiled hgc ws m d t
      (hty (m, d, t) (List.mem_cons_self _ _))]
    rw [ih (fun y hy => hty y (List.mem_cons_of_mem _ hy)) _ n hn.2]
    rw [wsLookup_upsert]
    exact if_neg (fun h => hn.1 h.symm)

theorem loadInputLoop_lookup (gpu compiled : Bool)
    (hgc : gpu = true → compiled = true)
    (l : List (String × String × String))
    (hty : ∀ x ∈ l, (parseElemType x.2.2).isSome)
    (hnd : (l.map (fun x => x.1)).Nodup) :
    ∀ ws i, i < l.length →
      wsLookup (loadInputLoop gpu compiled ws l).1 ((l.getD i default).1) =
        some (BlobContent.tensor
          ⟨parseDims (l.getD i default).2.1,
           parseElemType (l.getD i default).2.2, gpu⟩) := by
  induction l with
  | nil => intro ws i hi; exact absurd hi (Nat.not_lt_zero i)
  | cons x rest ih =>
    intro ws i hi
    obtain ⟨m, d, t⟩ := x
    simp only [List.map_cons, List.nodup_cons] at hnd
    rw [loadInputLoop, materializeOne_ok gpu compiled hgc ws m d t
      (hty (m, d, t) (List.mem_cons_self _ _))]
    cases i with
    | zero =>
      rw [show (((m, d, t) :: rest).getD 0 default) = (m, d, t) from rfl]
      rw [loadInputLoop_lookup_notmem gpu compiled hgc rest
        (fun y hy => hty y (List.mem_cons_of_mem _ hy)) _ m hnd.1]
      simp [wsLookup_upsert]
    | succ j =>
      rw [show (((m, d, t) :: rest).getD (j + 1) default) = rest.getD j default
        from rfl]
      exact ih (fun y hy => hty y (List.mem_cons_of_mem _ hy)) hnd.2 _ j
        (Nat.lt_of_succ_lt_succ hi)

/-- C7: a non-empty input-name list with no file, no dimension and no type
information throws the "no source" configuration error and leaves the store
untouched. -/
theorem c7_inputs_without_source (ws : Workspace) (gpu compiled : Bool)
    (names : List String) (h : names ≠ []) :
    loadInput ws gpu compiled names [] [] [] =
      (ws, some ("You requested input tensors, but neither input_file nor " ++
        "input_dims is set.")) := by
  cases names with
  | nil => exact absurd rfl h
  | cons a l => simp [loadInput]

/-- Witness for C7 with one requested input name and an empty store. -/
theorem c7_inputs_without_source_witness :
    loadInput [] false false ["data"] [] [] [] =
      ([], some ("You requested input tensors, but neither input_file nor " ++
        "input_dims is set.")) :=
  c7_inputs_without_source [] false false ["data"] (by decide)

theorem deserialize_fold_notmem (ps : List (String × String)) :
    ∀ (ws : Workspace) (n : String), n ∉ ps.map Prod.fst →
      wsLookup (ps.foldl
        (fun w p => upsert w p.1 (BlobContent.deserialized p.2)) ws) n =
        wsLookup ws n := by
  induction ps with
  | nil => intro ws n _; rfl
  | cons p rest ih =>
    intro ws n hn
    simp only [List.map_cons, List.mem_cons, not_or] at hn
    rw [List.foldl_cons, ih _ n hn.2, wsLookup_upsert]
    exact if_neg (fun h => hn.1 h.symm)

theorem deserialize_fold_lookup (ps : List (String × String))
    (hnd : (ps.map Prod.fst).Nodup) :
    ∀ (ws : Workspace) (i : Nat), i < ps.length →
      wsLookup (ps.foldl
        (fun w p => upsert w p.1 (BlobContent.deserialized p.2)) ws)
          ((ps.getD i default).1) =
        some (BlobContent.deserialized ((ps.getD i default).2)) := by
  induction ps with
  | nil => intro ws i hi; exact absurd hi (Nat.not_lt_zero i)
  | cons p rest ih =>
    intro ws i hi
    simp only [List.map_cons, List.nodup_cons] at hnd
    cases i with
    | zero =>
      rw [List.foldl_cons,
        show ((p :: rest).getD 0 default) = p from rfl,
        deserialize_fold_notmem rest _ p.1 hnd.1]
      simp [wsLookup_upsert]
    | succ j =>
      rw [List.foldl_cons,
        show ((p :: rest).getD (j + 1) default) = rest.getD j default from rfl]
      exact ih hnd.2 _ j (Nat.lt_of_succ_lt_succ hi)

theorem zip_getD (ns fs : List String) :
    ∀ i, i < ns.length → i < fs.length →
      (ns.zip fs).getD i default = (ns.getD i "", fs.getD i "") := by
  induction ns generalizing fs with
  | nil => intro i hi _; exact absurd hi (Nat.not_lt_zero i)
  | cons a ns ih =>
    intro i hi hj
    cases fs with
    | nil => exact absurd hj (Nat.not_lt_zero i)
    | cons b fs =>
      cases i with
      | zero => rfl
      | succ j =>
        exact ih fs j (Nat.lt_of_succ_lt_succ hi) (Nat.lt_of_succ_lt_succ hj)

/-- C9: when both the name list and the file list are non-empty, `loadInput`
takes the file branch: the dimension-group and type lists are ignored
entirely (the result is identical for arbitrary replacements of them, so
their lengths are never checked and no shape/type allocation occurs); with
matching name/file counts each name's blob holds the deserialization of its
file, and only a name/file count mismatch fails. -/
theorem c9_file_mode_precedence (ws : Workspace) (gpu compiled : Bool)
    (names files dims types dims' types' : List String)
    (hn : names ≠ []) (hf : files ≠ []) :
    loadInput ws gpu compiled names files dims types =
      loadInput ws gpu compiled names files dims' types' ∧
    (names.length = files.length →
      (loadInput ws gpu compiled names files dims types).2 = none ∧
      (names.Nodup → ∀ i, i < names.length →
        wsLookup (loadInput ws gpu compiled names files dims types).1
            (names.getD i "") =
          some (BlobContent.deserialized (files.getD i "")))) ∧
    (names.length ≠ files.length →
      loadInput ws gpu compiled names files dims types =
        (ws, some "Input name and file should have the same number.")) := by
  have hne : names.isEmpty = false := by
    cases names with
    | nil => exact absurd rfl hn
    | cons a l => rfl
  have hfe : files.isEmpty = false := by
    cases files with
    | nil => exact absurd rfl hf
    | cons a l => rfl
  refine ⟨by simp [loadInput, hne, hfe], ?_, ?_⟩
  · intro hlen
    constructor
    · simp [loadInput, hne, hfe, hlen]
    · intro hnd i hi
      have hmap : (names.zip files).map Prod.fst = names :=
        List.map_fst_zip names files (le_of_eq hlen)
      have hlkp := deserialize_fold_lookup (names.zip files)
        (by rw [hmap]; exact hnd) ws i
        (by rw [List.length_zip, ← hlen, Nat.min_self]; exact hi)
      rw [zip_getD names files i hi (hlen ▸ hi)] at hlkp
      simpa [loadInput, hne, hfe, hlen] using hlkp
  · intro hlen
    simp [loadInput, hne, hfe, hlen]

/-- Witness for C9: two names and two files, with and without distractor
dimension/type lists. -/
theorem c9_file_mode_precedence_witness :
    loadInput [] false false ["a", "b"] ["f", "g"] ["1,2"] ["float"] =
      loadInput [] false false ["a", "b"] ["f", "g"] [] [] ∧
    (loadInput [] false false ["a", "b"] ["f", "g"] ["1,2"] ["float"]).2 =
      none ∧
    wsLookup (loadInput [] false false
        ["a", "b"] ["f", "g"] ["1,2"] ["float"]).1 "b" =
      some (BlobContent.deserialized "g") := by
  have h := c9_file_mode_precedence [] false false ["a", "b"] ["f", "g"]
    ["1,2"] ["float"] [] [] (by decide) (by decide)
  refine ⟨h.1, (h.2.1 rfl).1, ?_⟩
  have := (h.2.1 rfl).2 (by decide) 1 (by decide)
  simpa using this

theorem zip3_length (ns ds ts : List String) :
    ns.length = ds.length → ns.length = ts.length →
      (zip3 ns ds ts).length = ns.length := by
  induction ns generalizing ds ts with
  | nil => intro _ _; cases ds <;> cases ts <;> rfl
  | cons a ns ih =>
    intro hd ht
    cases ds with
    | nil => exact absurd hd (by simp)
    | cons b ds =>
      cases ts with
      | nil => exact absurd ht (by simp)
      | cons c ts =>
        simp only [zip3, List.length_cons]
        rw [ih ds ts (by simpa using hd) (by simpa using ht)]

theorem zip3_getD (ns ds ts : List String) :
    ns.length = ds.length → ns.length = ts.length →
      ∀ i, i < ns.length →
        (zip3 ns ds ts).getD i default =
          (ns.getD i "", ds.getD i "", ts.getD i "") := by
  induction ns generalizing ds ts with
  | nil => intro _ _ i hi; exact absurd hi (Nat.not_lt_zero i)
  | cons a ns ih =>
    intro hd ht i hi
    cases ds with
    | nil => exact absurd hd (by simp)
    | cons b ds =>
      cases ts with
      | nil => exact absurd ht (by simp)
      | cons c ts =>
        cases i with
        | zero => rfl
        | succ j =>
          exact ih ds ts (by simpa using hd) (by simpa using ht) j
            (Nat.lt_of_succ_lt_succ hi)

theorem zip3_map_fst (ns ds ts : List String) :
    ns.length = ds.length → ns.length = ts.length →
      (zip3 ns ds ts).map (fun x => x.1) = ns := by
  induction ns generalizing ds ts with
  | nil => intro _ _; cases ds <;> cases ts <;> rfl
  | cons a ns ih =>
    intro hd ht
    cases ds with
    | nil => exact absurd hd (by simp)
    | cons b ds =>
      cases ts with
      | nil => exact absurd ht (by simp)
      | cons c ts =>
        simp only [zip3, List.map_cons]
        rw [ih ds ts (by simpa using hd) (by simpa using ht)]

theorem zip3_mem_type (ns ds ts : List String)
    (x : String × String × String) :
    x ∈ zip3 ns ds ts → x.2.2 ∈ ts := by
  induction ns generalizing ds ts with
  | nil => intro h; cases ds <;> cases ts <;> simp [zip3] at h
  | cons a ns ih =>
    intro h
    cases ds with
    | nil => simp [zip3] at h
    | cons b ds =>
      cases ts with
      | nil => simp [zip3] at h
      | cons c ts =>
        rcases List.mem_cons.mp h with h0 | h0
        · subst h0; exact List.mem_cons_self _ _
        · exact List.mem_cons_of_mem _ (ih ds ts h0)

/-- C3: in shape/type mode (no file list), an equal-length triple of
distinct names, dimension groups and supported type strings materializes,
without error, one blob per name holding a tensor whose shape is the parsed
dimension group and whose element type is the requested one (with the
globally resolved residency); any length mismatch between the lists throws
before the store is touched. -/
theorem c3_shape_type_mode (ws : Workspace) (gpu compiled : Bool)
    (names dims types : List String)
    (hgc : gpu = true → compiled = true) :
    (names.Nodup → names.length = dims.length → names.length = types.length →
      (∀ t ∈ types, (parseElemType t).isSome) →
      (loadInput ws gpu compiled names [] dims types).2 = none ∧
      ∀ i, i < names.length →
        wsLookup (loadInput ws gpu compiled names [] dims types).1
            (names.getD i "") =
          some (BlobContent.tensor
            ⟨parseDims (dims.getD i ""), parseElemType (types.getD i ""),
             gpu⟩)) ∧
    (names ≠ [] →
      (names.length ≠ dims.length ∨ names.length ≠ types.length) →
      (loadInput ws gpu compiled names [] dims types).1 = ws ∧
      ((loadInput ws gpu compiled names [] dims types).2).isSome) := by
  constructor
  · intro hnd hld hlt hty
    cases names with
    | nil =>
      refine ⟨rfl, ?_⟩
      intro i hi
      exact absurd hi (Nat.not_lt_zero i)
    | cons a ns =>
      have hde : dims.isEmpty = false := by
        cases dims with
        | nil => exact absurd hld (by simp)
        | cons _ _ => rfl
      have hloop : loadInput ws gpu compiled (a :: ns) [] dims types =
          loadInputLoop gpu compiled ws (zip3 (a :: ns) dims types) := by
        have hld1 : ns.length + 1 = dims.length := by simpa using hld
        have hlt1 : ns.length + 1 = types.length := by simpa using hlt
        simp [loadInput, hde, eq_true hld1, eq_true hlt1]
      have htyz : ∀ x ∈ zip3 (a :: ns) dims types,
          (parseElemType x.2.2).isSome :=
        fun x hx => hty x.2.2 (zip3_mem_type _ _ _ x hx)
      have hndz : ((zip3 (a :: ns) dims types).map (fun x => x.1)).Nodup := by
        rw [zip3_map_fst _ _ _ hld hlt]; exact hnd
      refine ⟨?_, ?_⟩
      · rw [hloop]
        exact loadInputLoop_err_none gpu compiled hgc _ htyz ws
      · intro i hi
        rw [hloop]
        have hlen : i < (zip3 (a :: ns) dims types).length := by
          rw [zip3_length _ _ _ hld hlt]; exact hi
        have := loadInputLoop_lookup gpu compiled hgc _ htyz hndz ws i hlen
        rwa [zip3_getD _ _ _ hld hlt i hi] at this
  · intro hne hmis
    have hnee : names.isEmpty = false := by
      cases names with
      | nil => exact absurd rfl hne
      | cons _ _ => rfl
    by_cases hde : dims = []
    · by_cases hte : types = []
      · subst hde; subst hte
        constructor
        · simp [loadInput, hnee]
        · simp [loadInput, hnee]
      · have htee : types.isEmpty = false := by
          cases types with
          | nil => exact absurd rfl hte
          | cons _ _ => rfl
        subst hde
        have hld : names.length ≠ 0 := by
          cases names with
          | nil => exact absurd rfl hne
          | cons _ _ => simp
        constructor <;> simp [loadInput, hnee, htee, hld]
    · have hdee : dims.isEmpty = false := by
        cases dims with
        | nil => exact absurd rfl hde
        | cons _ _ => rfl
      by_cases hld : names.length = dims.length
      · have hlt : names.length ≠ types.length := by
          rcases hmis with h | h
          · exact absurd hld h
          · exact h
        constructor <;> simp [loadInput, hnee, hdee, eq_true hld, eq_false hlt]
      · constructor <;> simp [loadInput, hnee, hdee, hld]

/-- Witness for C3: two names with shapes `1,2` / `3`, types `float` /
`uint8_t`, and a length-mismatch case. -/
theorem c3_shape_type_mode_witness :
    (loadInput [] false false ["a", "b"] [] ["1,2", "3"]
      ["float", "uint8_t"]).2 = none ∧
    wsLookup (loadInput [] false false ["a", "b"] [] ["1,2", "3"]
        ["float", "uint8_t"]).1 "b" =
      some (BlobContent.tensor ⟨[3], some ElemType.uint8, false⟩) ∧
    (loadInput [] false false ["a", "b"] [] ["1,2"] ["float", "uint8_t"]).1 =
      [] ∧
    ((loadInput [] false false ["a", "b"] [] ["1,2"]
      ["float", "uint8_t"]).2).isSome := by
  have h := c3_shape_type_mode [] false false ["a", "b"] ["1,2", "3"]
    ["float", "uint8_t"] (fun h => h)
  have hgood := h.1 (by decide) rfl rfl (by decide)
  have hmis := c3_shape_type_mode [] false false ["a", "b"] ["1,2"]
    ["float", "uint8_t"] (fun h => h)
  have hb := hgood.2 1 (by decide)
  refine ⟨hgood.1, ?_, (hmis.2 (by decide) (Or.inl (by decide))).1,
    (hmis.2 (by decide) (Or.inl (by decide))).2⟩
  have hdims : parseDims "3" = [3] := by decide
  have htype : parseElemType "uint8_t" = some ElemType.uint8 := by decide
  simpa [hdims, htype] using hb

/-! ## Claims about the output writer -/

/-- The single output produced for an existing blob name: its text rendering,
or the binary file at the prefixed path. -/
def outEventFor (text_output : Bool) (outPfx name : String) : OutEvent :=
  if text_output then OutEvent.textOut name
  else OutEvent.binaryFile (outPfx ++ name) name

/-- C2 as stated is false: the existence check runs inside the per-name
write loop, so requesting `["a", "b"]` against a store holding only `"a"`
writes the file for `"a"` before throwing on `"b"`. -/
theorem c2_missing_blob_counterexample :
    (writeOutputLoop [("a", BlobContent.deserialized "f")] false false false ""
      ["a", "b"]).2 = some "You requested a non-existing blob: b" ∧
    (writeOutputLoop [("a", BlobContent.deserialized "f")] false false false ""
      ["a", "b"]).1 = [OutEvent.binaryFile "a" "a"] := by
  decide

/-- C2 amended: a request list containing a missing name fails with the
"non-existing blob" error naming the first missing name, and writes nothing
for that name or the names after it — but every name before the first
missing one has already been written when the error is thrown. -/
theorem c2_missing_blob_amended (ws : Workspace)
    (gpu compiled text_output : Bool) (outPfx : String)
    (pre rest : List String) (missing : String)
    (hpre : ∀ n ∈ pre, (wsLookup ws n).isSome)
    (hmiss : wsLookup ws missing = none)
    (hgc : text_output = true → gpu = true → compiled = true) :
    writeOutputLoop ws gpu compiled text_output outPfx
        (pre ++ missing :: rest) =
      (pre.map (outEventFor text_output outPfx),
       some ("You requested a non-existing blob: " ++ missing)) := by
  induction pre with
  | nil => simp [writeOutputLoop, hmiss]
  | cons n pre ih =>
    have hs : (wsLookup ws n).isSome := hpre n (List.mem_cons_self _ _)
    have ih1 := ih (fun m hm => hpre m (List.mem_cons_of_mem _ hm))
    cases text_output with
    | false =>
      simp only [List.cons_append, writeOutputLoop, hs, if_true, ih1,
        Bool.false_eq_true, if_false]
      simp [ih1, outEventFor]
    | true =>
      cases gpu with
      | false =>
        simp only [List.cons_append, writeOutputLoop, hs, if_true, ih1,
          Bool.false_eq_true, if_false]
        simp [ih1, outEventFor]
      | true =>
        have hc : compiled = true := hgc rfl rfl
        subst hc
        simp only [List.cons_append, writeOutputLoop, hs, if_true, ih1]
        simp [ih1, outEventFor]

/-- Witness for the amended C2 at the counterexample's input. -/
theorem c2_missing_blob_amended_witness :
    writeOutputLoop [("a", BlobContent.deserialized "f")] false false false ""
        (["a"] ++ "b" :: []) =
      (["a"].map (outEventFor false ""),
       some ("You requested a non-existing blob: " ++ "b")) :=
  c2_missing_blob_amended [("a", BlobContent.deserialized "f")] false false
    false "" ["a"] [] "b" (by decide) (by decide)
    (fun h => absurd h (by decide))

end BenchmarkHelper
